import Mathlib

set_option maxRecDepth 8192
set_option maxHeartbeats 1000000

/-!
Shallow embedding of the modal, chorded key-sequence dispatch engine of the
edtui repository (src/src/events/key.rs), together with theorems checking
the natural-language specification against it.

Types owned by external crates or by repository files outside src/
(the crokey KeyCombination, the crossterm KeyCode and KeyModifiers, the
EditorMode, the EditorState and the actions module) are modelled from the
spec, as noted on each such definition.  The HashMap register is modelled
as an association list; Rust leaves HashMap iteration order unspecified,
and this development fixes it to insertion order.
-/

namespace Edtui

/-- Modelled from the spec: the key identity part of an input event (the
crossterm KeyCode enum is external to src/); only the variants the
repository uses are included (character, function or navigation key,
control key, per section 3). -/
inductive KeyCode where
  | Char (c : Char)
  | Tab
  | Esc
  | Enter
  | Backspace
  | Delete
  | Left
  | Right
  | Up
  | Down
  | Home
  | End
deriving DecidableEq

/-- Modelled from the spec: the modifier set of an input event (the
crossterm KeyModifiers type is external to src/): a subset of Shift,
Control, Alt, per section 3. -/
structure Modifiers where
  shift : Bool
  control : Bool
  alt : Bool
deriving DecidableEq

/-- Modelled from the spec: the empty modifier set, KeyModifiers::NONE. -/
def Modifiers.NONE : Modifiers := ⟨false, false, false⟩

/-- Modelled from the spec: the Control modifier set,
KeyModifiers::CONTROL. -/
def Modifiers.CONTROL : Modifiers := ⟨false, true, false⟩

/-- Modelled from the spec: an atomic, already-normalized input event (the
crokey KeyCombination type is external to src/): key identity plus a
modifier set.  crokey stores one to three key codes; the dispatcher only
ever reads the first one, so the codes are modelled as the first code plus
the list of remaining codes. -/
structure KeyCombination where
  codeFirst : KeyCode
  codesRest : List KeyCode
  modifiers : Modifiers
deriving DecidableEq

/-- KeyCombination::one_key: a combination holding a single key code and a
modifier set. -/
def KeyCombination.one_key (c : KeyCode) (m : Modifiers) : KeyCombination :=
  ⟨c, [], m⟩

/-- Modelled from the spec: the exclusive editing mode (EditorMode lives in
the crate root, outside src/): the closed enum of section 3. -/
inductive EditorMode where
  | Normal
  | Insert
  | Visual
  | Search
deriving DecidableEq

/-- Modelled from the spec: the atomic action identities of the actions
module (crate::actions, outside src/): each is a named effect with its
captured parameters, per section 3.  Effect bodies act on the external
buffer, cursor, selection and search state, and are observed here as trace
events; SwitchMode is the one effect whose state change, the active mode,
the dispatcher itself reads. -/
inductive AtomicAction where
  | SwitchMode (m : EditorMode)
  | StartSearch
  | FindFirst
  | FindNext
  | FindPrevious
  | StopSearch
  | RemoveCharFromSearch
  | SelectCurrentSearch
  | AppendCharToSearch (c : Char)
  | MoveForward (n : Nat)
  | MoveBackward (n : Nat)
  | MoveUp (n : Nat)
  | MoveDown (n : Nat)
  | MoveWordForward (n : Nat)
  | MoveWordBackward (n : Nat)
  | MoveWordForwardToEndOfWord (n : Nat)
  | MoveToStartOfLine
  | MoveToFirst
  | MoveToEndOfLine
  | MoveToFirstRow
  | MoveToLastRow
  | MoveToMatchinBracket
  | MoveHalfPageDown
  | MoveHalfPageUp
  | AppendNewline (n : Nat)
  | InsertNewline (n : Nat)
  | LineBreak (n : Nat)
  | InsertChar (c : Char)
  | RemoveChar (n : Nat)
  | DeleteChar (n : Nat)
  | DeleteCharForward (n : Nat)
  | DeleteLine (n : Nat)
  | DeleteToEndOfLine
  | DeleteToFirstCharOfLine
  | DeleteSelection
  | JoinLineWithLineBelow
  | SelectInnerWord
  | SelectInnerBetween (first last : Char)
  | ChangeInnerWord
  | ChangeInnerBetween (first last : Char)
  | ChangeSelection
  | SelectLine
  | Undo
  | Redo
  | CopyLine
  | CopySelection
  | Paste
  | PasteOverSelection
deriving DecidableEq

/-- Modelled from the spec: an observable step of action execution.  Atomic
effects and undo checkpoints (EditorState::capture) are recorded in the
order they are applied. -/
inductive TraceEvent where
  | act (a : AtomicAction)
  | capture
deriving DecidableEq

/-- Modelled from the spec: the editor state as the dispatcher observes it
(EditorState is external to src/): the active mode, plus the ordered trace
of effects applied to the external buffer, cursor, selection and search
state. -/
structure EditorState where
  mode : EditorMode
  trace : List TraceEvent
deriving DecidableEq

/-- Modelled from the spec: EditorState::capture takes an undo checkpoint
of the buffer (section 7 and the Capture glossary entry); recorded here as
a trace event. -/
def EditorState.capture (s : EditorState) : EditorState :=
  { s with trace := s.trace ++ [TraceEvent.capture] }

/-- Modelled from the spec: executing one atomic action against editor
state (section 4.4).  SwitchMode updates the active mode; every atomic
effect is recorded in the trace. -/
def AtomicAction.execute (a : AtomicAction) (s : EditorState) : EditorState :=
  match a with
  | AtomicAction.SwitchMode m =>
      { s with
        mode := m
        trace := s.trace ++ [TraceEvent.act (AtomicAction.SwitchMode m)] }
  | a => { s with trace := s.trace ++ [TraceEvent.act a] }

/-- Modelled from the spec: an Action is atomic, or a composed ordered list
of sub-actions (section 3). -/
inductive Action where
  | atomic (a : AtomicAction)
  | composed (acts : List Action)

mutual

/-- Modelled from the spec: Action execution (section 4.4): an atomic
action invokes its effect; a composed action invokes each child in declared
list order. -/
def Action.execute : Action → EditorState → EditorState
  | Action.atomic a, s => AtomicAction.execute a s
  | Action.composed acts, s => Action.executeAll acts s

/-- Modelled from the spec: execution of a list of sub-actions in order,
each child observing the mutations of the previous one (section 3). -/
def Action.executeAll : List Action → EditorState → EditorState
  | [], s => s
  | a :: rest, s => Action.executeAll rest (Action.execute a s)

end

/-- A registered binding key: an ordered chord of key combinations scoped
to a mode (struct KeyCombinationRegister in src/src/events/key.rs). -/
structure KeyCombinationRegister where
  keys : List KeyCombination
  mode : EditorMode
deriving DecidableEq

/-- KeyCombinationRegister::new. -/
def KeyCombinationRegister.new (key : List KeyCombination) (mode : EditorMode) :
    KeyCombinationRegister :=
  ⟨key, mode⟩

/-- KeyCombinationRegister::n: a Normal-mode binding key. -/
def KeyCombinationRegister.n (key : List KeyCombination) : KeyCombinationRegister :=
  KeyCombinationRegister.new key EditorMode.Normal

/-- KeyCombinationRegister::v: a Visual-mode binding key. -/
def KeyCombinationRegister.v (key : List KeyCombination) : KeyCombinationRegister :=
  KeyCombinationRegister.new key EditorMode.Visual

/-- KeyCombinationRegister::i: an Insert-mode binding key. -/
def KeyCombinationRegister.i (key : List KeyCombination) : KeyCombinationRegister :=
  KeyCombinationRegister.new key EditorMode.Insert

/-- KeyCombinationRegister::s: a Search-mode binding key. -/
def KeyCombinationRegister.s (key : List KeyCombination) : KeyCombinationRegister :=
  KeyCombinationRegister.new key EditorMode.Search

/-- HashMap::insert modelled on an association list with unique keys:
replace the value at an existing key, otherwise append the new entry. -/
def insertEntry : List (KeyCombinationRegister × Action) → KeyCombinationRegister →
    Action → List (KeyCombinationRegister × Action)
  | [], k, a => [(k, a)]
  | kv :: rest, k, a =>
      if kv.1 = k then (k, a) :: rest else kv :: insertEntry rest k a

/-- HashMap::remove modelled on an association list: drop the entry at the
key, if present. -/
def removeEntry : List (KeyCombinationRegister × Action) → KeyCombinationRegister →
    List (KeyCombinationRegister × Action)
  | [], _ => []
  | kv :: rest, k => if kv.1 = k then rest else kv :: removeEntry rest k

/-- HashMap::get modelled on an association list: the value stored at the
key, if any. -/
def findEntry (r : List (KeyCombinationRegister × Action))
    (k : KeyCombinationRegister) : Option Action :=
  (r.find? fun kv => decide (kv.1 = k)).map Prod.snd

/-- HashMap::extend modelled on association lists: insert each entry of the
iterator in order, later entries overwriting earlier ones at the same
key. -/
def extendEntries (r : List (KeyCombinationRegister × Action))
    (l : List (KeyCombinationRegister × Action)) :
    List (KeyCombinationRegister × Action) :=
  l.foldl (fun acc kv => insertEntry acc kv.1 kv.2) r

/-- HashMap::from modelled on association lists: build the map by inserting
every listed entry, in order, into an empty map. -/
def hashMapFrom (l : List (KeyCombinationRegister × Action)) :
    List (KeyCombinationRegister × Action) :=
  extendEntries [] l

/-- Shorthand used by the keymap transcriptions below for
KeyCombination::one_key applied with KeyModifiers::NONE; this also covers
the crokey key! macro calls for plain characters, which crokey normalizes
to a single code with no modifiers. -/
def pk (c : KeyCode) : KeyCombination :=
  KeyCombination.one_key c Modifiers.NONE

/-- Shorthand for the Into conversion of one atomic action value into an
Action. -/
def A1 (a : AtomicAction) : Action :=
  Action.atomic a

/-- Shorthand for Composed::new followed by chain calls converted into an
Action: a composed Action over the listed sub-actions, in order. -/
def AC (l : List AtomicAction) : Action :=
  Action.composed (l.map Action.atomic)

/-- Transcription of fn vim_keybindings in src/src/events/key.rs: the entry
list handed to HashMap::from, in source order, run through the HashMap
construction (so duplicate keys collapse, last write winning, exactly as in
Rust).  The system-editor entry is behind a disabled cargo feature and is
not included. -/
def vim_keybindings : List (KeyCombinationRegister × Action) :=
  hashMapFrom [
    (KeyCombinationRegister.i [pk KeyCode.Esc], A1 (.SwitchMode .Normal)),
    (KeyCombinationRegister.v [pk KeyCode.Esc], A1 (.SwitchMode .Normal)),
    (KeyCombinationRegister.n [pk (KeyCode.Char 'i')], A1 (.SwitchMode .Insert)),
    (KeyCombinationRegister.n [pk (KeyCode.Char 'v')], A1 (.SwitchMode .Visual)),
    (KeyCombinationRegister.n [pk (KeyCode.Char '/')], AC [.StartSearch, .SwitchMode .Search]),
    (KeyCombinationRegister.s [pk KeyCode.Enter], AC [.FindFirst, .SwitchMode .Normal]),
    (KeyCombinationRegister.n [pk (KeyCode.Char 'n')], A1 .FindNext),
    (KeyCombinationRegister.n [pk (KeyCode.Char 'N')], A1 .FindPrevious),
    (KeyCombinationRegister.s [pk KeyCode.Esc], AC [.StopSearch, .SwitchMode .Normal]),
    (KeyCombinationRegister.s [pk KeyCode.Backspace], A1 .RemoveCharFromSearch),
    (KeyCombinationRegister.n [pk (KeyCode.Char 'a')], AC [.SwitchMode .Insert, .MoveForward 1]),
    (KeyCombinationRegister.n [pk (KeyCode.Char 'l')], A1 (.MoveForward 1)),
    (KeyCombinationRegister.v [pk (KeyCode.Char 'l')], A1 (.MoveForward 1)),
    (KeyCombinationRegister.n [pk KeyCode.Right], A1 (.MoveForward 1)),
    (KeyCombinationRegister.v [pk KeyCode.Right], A1 (.MoveForward 1)),
    (KeyCombinationRegister.i [pk KeyCode.Right], A1 (.MoveForward 1)),
    (KeyCombinationRegister.n [pk (KeyCode.Char 'h')], A1 (.MoveBackward 1)),
    (KeyCombinationRegister.v [pk (KeyCode.Char 'h')], A1 (.MoveBackward 1)),
    (KeyCombinationRegister.n [pk KeyCode.Left], A1 (.MoveBackward 1)),
    (KeyCombinationRegister.v [pk KeyCode.Left], A1 (.MoveBackward 1)),
    (KeyCombinationRegister.i [pk KeyCode.Left], A1 (.MoveBackward 1)),
    (KeyCombinationRegister.n [pk (KeyCode.Char 'k')], A1 (.MoveUp 1)),
    (KeyCombinationRegister.v [pk (KeyCode.Char 'k')], A1 (.MoveUp 1)),
    (KeyCombinationRegister.n [pk KeyCode.Up], A1 (.MoveUp 1)),
    (KeyCombinationRegister.v [pk KeyCode.Up], A1 (.MoveUp 1)),
    (KeyCombinationRegister.i [pk KeyCode.Up], A1 (.MoveUp 1)),
    (KeyCombinationRegister.n [pk (KeyCode.Char 'j')], A1 (.MoveDown 1)),
    (KeyCombinationRegister.v [pk (KeyCode.Char 'j')], A1 (.MoveDown 1)),
    (KeyCombinationRegister.n [pk KeyCode.Down], A1 (.MoveDown 1)),
    (KeyCombinationRegister.v [pk KeyCode.Down], A1 (.MoveDown 1)),
    (KeyCombinationRegister.i [pk KeyCode.Down], A1 (.MoveDown 1)),
    (KeyCombinationRegister.n [pk (KeyCode.Char 'w')], A1 (.MoveWordForward 1)),
    (KeyCombinationRegister.v [pk (KeyCode.Char 'w')], A1 (.MoveWordForward 1)),
    (KeyCombinationRegister.n [pk (KeyCode.Char 'e')], A1 (.MoveWordForwardToEndOfWord 1)),
    (KeyCombinationRegister.v [pk (KeyCode.Char 'e')], A1 (.MoveWordForwardToEndOfWord 1)),
    (KeyCombinationRegister.n [pk (KeyCode.Char 'b')], A1 (.MoveWordBackward 1)),
    (KeyCombinationRegister.v [pk (KeyCode.Char 'b')], A1 (.MoveWordBackward 1)),
    (KeyCombinationRegister.n [pk (KeyCode.Char '0')], A1 .MoveToStartOfLine),
    (KeyCombinationRegister.n [pk (KeyCode.Char '_')], A1 .MoveToFirst),
    (KeyCombinationRegister.n [pk (KeyCode.Char '$')], A1 .MoveToEndOfLine),
    (KeyCombinationRegister.v [pk (KeyCode.Char '0')], A1 .MoveToStartOfLine),
    (KeyCombinationRegister.v [pk (KeyCode.Char '_')], A1 .MoveToFirst),
    (KeyCombinationRegister.v [pk (KeyCode.Char '$')], A1 .MoveToEndOfLine),
    (KeyCombinationRegister.n [pk (KeyCode.Char 'd')], A1 .MoveHalfPageDown),
    (KeyCombinationRegister.v [pk (KeyCode.Char 'd')], A1 .MoveHalfPageDown),
    (KeyCombinationRegister.n [pk (KeyCode.Char 'u')], A1 .MoveHalfPageUp),
    (KeyCombinationRegister.v [pk (KeyCode.Char 'u')], A1 .MoveHalfPageUp),
    (KeyCombinationRegister.i [pk KeyCode.Home], A1 .MoveToStartOfLine),
    (KeyCombinationRegister.n [pk KeyCode.Home], A1 .MoveToStartOfLine),
    (KeyCombinationRegister.v [pk KeyCode.Home], A1 .MoveToStartOfLine),
    (KeyCombinationRegister.i [pk KeyCode.End], A1 .MoveToEndOfLine),
    (KeyCombinationRegister.n [pk KeyCode.End], A1 .MoveToEndOfLine),
    (KeyCombinationRegister.v [pk KeyCode.End], A1 .MoveToEndOfLine),
    (KeyCombinationRegister.i [pk (KeyCode.Char 'u')], A1 .DeleteToFirstCharOfLine),
    (KeyCombinationRegister.n [pk (KeyCode.Char 'I')], AC [.SwitchMode .Insert, .MoveToFirst]),
    (KeyCombinationRegister.n [pk (KeyCode.Char 'A')],
      AC [.SwitchMode .Insert, .MoveToEndOfLine, .MoveForward 1]),
    (KeyCombinationRegister.n [pk (KeyCode.Char 'g'), pk (KeyCode.Char 'g')], A1 .MoveToFirstRow),
    (KeyCombinationRegister.v [pk (KeyCode.Char 'g'), pk (KeyCode.Char 'g')], A1 .MoveToFirstRow),
    (KeyCombinationRegister.n [pk (KeyCode.Char 'G')], A1 .MoveToLastRow),
    (KeyCombinationRegister.v [pk (KeyCode.Char 'G')], A1 .MoveToLastRow),
    (KeyCombinationRegister.n [pk (KeyCode.Char '%')], A1 .MoveToMatchinBracket),
    (KeyCombinationRegister.v [pk (KeyCode.Char '%')], A1 .MoveToMatchinBracket),
    (KeyCombinationRegister.n [pk (KeyCode.Char 'o')], AC [.SwitchMode .Insert, .AppendNewline 1]),
    (KeyCombinationRegister.n [pk (KeyCode.Char 'O')], AC [.SwitchMode .Insert, .InsertNewline 1]),
    (KeyCombinationRegister.i [pk KeyCode.Enter], A1 (.LineBreak 1)),
    (KeyCombinationRegister.n [pk (KeyCode.Char 'x')], A1 (.RemoveChar 1)),
    (KeyCombinationRegister.n [pk KeyCode.Delete], A1 (.RemoveChar 1)),
    (KeyCombinationRegister.i [pk KeyCode.Backspace], A1 (.DeleteChar 1)),
    (KeyCombinationRegister.i [pk KeyCode.Delete], A1 (.DeleteCharForward 1)),
    (KeyCombinationRegister.n [pk (KeyCode.Char 'd'), pk (KeyCode.Char 'd')], A1 (.DeleteLine 1)),
    (KeyCombinationRegister.n [pk (KeyCode.Char 'D')], A1 .DeleteToEndOfLine),
    (KeyCombinationRegister.v [pk (KeyCode.Char 'd')], AC [.DeleteSelection, .SwitchMode .Normal]),
    (KeyCombinationRegister.n [pk (KeyCode.Char 'J')], A1 .JoinLineWithLineBelow),
    (KeyCombinationRegister.v [pk (KeyCode.Char 'i'), pk (KeyCode.Char 'w')], A1 .SelectInnerWord),
    (KeyCombinationRegister.v [pk (KeyCode.Char 'i'), pk (KeyCode.Char '\x22')],
      A1 (.SelectInnerBetween '\x22' '\x22')),
    (KeyCombinationRegister.v [pk (KeyCode.Char 'i'), pk (KeyCode.Char '\x27')],
      A1 (.SelectInnerBetween '\x27' '\x27')),
    (KeyCombinationRegister.v [pk (KeyCode.Char 'i'), pk (KeyCode.Char '(')],
      A1 (.SelectInnerBetween '(' ')')),
    (KeyCombinationRegister.v [pk (KeyCode.Char 'i'), pk (KeyCode.Char ')')],
      A1 (.SelectInnerBetween '(' ')')),
    (KeyCombinationRegister.v [pk (KeyCode.Char 'i'), pk (KeyCode.Char '\x7b')],
      A1 (.SelectInnerBetween '\x7b' '\x7d')),
    (KeyCombinationRegister.v [pk (KeyCode.Char 'i'), pk (KeyCode.Char '\x7d')],
      A1 (.SelectInnerBetween '\x7b' '\x7d')),
    (KeyCombinationRegister.v [pk (KeyCode.Char 'i'), pk (KeyCode.Char '[')],
      A1 (.SelectInnerBetween '[' ']')),
    (KeyCombinationRegister.v [pk (KeyCode.Char 'i'), pk (KeyCode.Char ']')],
      A1 (.SelectInnerBetween '[' ']')),
    (KeyCombinationRegister.n [pk (KeyCode.Char 'c'), pk (KeyCode.Char 'i'), pk (KeyCode.Char 'w')],
      AC [.SwitchMode .Insert, .ChangeInnerWord]),
    (KeyCombinationRegister.n [pk (KeyCode.Char 'c'), pk (KeyCode.Char 'i'), pk (KeyCode.Char '\x22')],
      AC [.SwitchMode .Insert, .ChangeInnerBetween '\x22' '\x22']),
    (KeyCombinationRegister.n [pk (KeyCode.Char 'c'), pk (KeyCode.Char 'i'), pk (KeyCode.Char '\x27')],
      AC [.SwitchMode .Insert, .ChangeInnerBetween '\x27' '\x27']),
    (KeyCombinationRegister.n [pk (KeyCode.Char 'c'), pk (KeyCode.Char 'i'), pk (KeyCode.Char '(')],
      AC [.SwitchMode .Insert, .ChangeInnerBetween '(' ')']),
    (KeyCombinationRegister.n [pk (KeyCode.Char 'c'), pk (KeyCode.Char 'i'), pk (KeyCode.Char ')')],
      AC [.SwitchMode .Insert, .ChangeInnerBetween '(' ')']),
    (KeyCombinationRegister.n [pk (KeyCode.Char 'c'), pk (KeyCode.Char 'i'), pk (KeyCode.Char '\x7b')],
      AC [.SwitchMode .Insert, .ChangeInnerBetween '\x7b' '\x7d']),
    (KeyCombinationRegister.n [pk (KeyCode.Char 'c'), pk (KeyCode.Char 'i'), pk (KeyCode.Char '\x7d')],
      AC [.SwitchMode .Insert, .ChangeInnerBetween '\x7b' '\x7d']),
    (KeyCombinationRegister.n [pk (KeyCode.Char 'c'), pk (KeyCode.Char 'i'), pk (KeyCode.Char '[')],
      AC [.SwitchMode .Insert, .ChangeInnerBetween '[' ']']),
    (KeyCombinationRegister.n [pk (KeyCode.Char 'c'), pk (KeyCode.Char 'i'), pk (KeyCode.Char ']')],
      AC [.SwitchMode .Insert, .ChangeInnerBetween '[' ']']),
    (KeyCombinationRegister.v [pk (KeyCode.Char 'c')], AC [.SwitchMode .Insert, .ChangeSelection]),
    (KeyCombinationRegister.v [pk (KeyCode.Char 'x')], AC [.ChangeSelection, .SwitchMode .Normal]),
    (KeyCombinationRegister.n [pk (KeyCode.Char 'V')], A1 .SelectLine),
    (KeyCombinationRegister.n [pk (KeyCode.Char 'u')], A1 .Undo),
    (KeyCombinationRegister.n [pk (KeyCode.Char 'r')], A1 .Redo),
    (KeyCombinationRegister.v [pk (KeyCode.Char 'y')], AC [.CopySelection, .SwitchMode .Normal]),
    (KeyCombinationRegister.n [pk (KeyCode.Char 'y'), pk (KeyCode.Char 'y')], A1 .CopyLine),
    (KeyCombinationRegister.n [pk (KeyCode.Char 'p')], A1 .Paste),
    (KeyCombinationRegister.v [pk (KeyCode.Char 'p')], AC [.PasteOverSelection, .SwitchMode .Normal])
  ]

/-- Transcription of fn emacs_keybindings in src/src/events/key.rs: the
entry list handed to HashMap::from, in source order, run through the
HashMap construction (the source list repeats several keys, for example the
f, b, v, u, d and Backspace Insert-mode entries, so later entries
overwrite earlier ones, exactly as in Rust).  The system-editor entry is
behind a disabled cargo feature and is not included. -/
def emacs_keybindings : List (KeyCombinationRegister × Action) :=
  hashMapFrom [
    (KeyCombinationRegister.i [pk (KeyCode.Char 's')], AC [.StartSearch, .SwitchMode .Search]),
    (KeyCombinationRegister.s [pk (KeyCode.Char 's')], A1 .FindNext),
    (KeyCombinationRegister.s [pk (KeyCode.Char 'r')], A1 .FindPrevious),
    (KeyCombinationRegister.s [pk KeyCode.Enter], AC [.SelectCurrentSearch, .SwitchMode .Insert]),
    (KeyCombinationRegister.s [pk (KeyCode.Char 'g')], AC [.StopSearch, .SwitchMode .Insert]),
    (KeyCombinationRegister.s [pk KeyCode.Backspace], A1 .RemoveCharFromSearch),
    (KeyCombinationRegister.i [pk (KeyCode.Char 'f')], A1 (.MoveForward 1)),
    (KeyCombinationRegister.i [pk KeyCode.Right], A1 (.MoveForward 1)),
    (KeyCombinationRegister.i [pk (KeyCode.Char 'b')], A1 (.MoveBackward 1)),
    (KeyCombinationRegister.i [pk KeyCode.Left], A1 (.MoveBackward 1)),
    (KeyCombinationRegister.i [pk (KeyCode.Char 'p')], A1 (.MoveUp 1)),
    (KeyCombinationRegister.i [pk KeyCode.Up], A1 (.MoveUp 1)),
    (KeyCombinationRegister.i [pk (KeyCode.Char 'n')], A1 (.MoveDown 1)),
    (KeyCombinationRegister.i [pk KeyCode.Down], A1 (.MoveDown 1)),
    (KeyCombinationRegister.i [pk (KeyCode.Char 'f')], A1 (.MoveWordForward 1)),
    (KeyCombinationRegister.i [pk (KeyCode.Char 'b')], A1 (.MoveWordBackward 1)),
    (KeyCombinationRegister.i [pk (KeyCode.Char 'v')], A1 .MoveHalfPageDown),
    (KeyCombinationRegister.i [pk (KeyCode.Char 'v')], A1 .MoveHalfPageUp),
    (KeyCombinationRegister.i [pk (KeyCode.Char '<')], A1 .MoveToFirstRow),
    (KeyCombinationRegister.i [pk (KeyCode.Char '>')], A1 .MoveToLastRow),
    (KeyCombinationRegister.i [pk (KeyCode.Char 'a')], A1 .MoveToStartOfLine),
    (KeyCombinationRegister.i [pk KeyCode.Home], A1 .MoveToStartOfLine),
    (KeyCombinationRegister.i [pk KeyCode.End], A1 .MoveToEndOfLine),
    (KeyCombinationRegister.i [pk (KeyCode.Char 'e')], A1 .MoveToEndOfLine),
    (KeyCombinationRegister.i [pk (KeyCode.Char 'u')], A1 .DeleteToFirstCharOfLine),
    (KeyCombinationRegister.i [pk (KeyCode.Char 'k')], A1 .DeleteToEndOfLine),
    (KeyCombinationRegister.i [pk (KeyCode.Char 'o')],
      AC [.LineBreak 1, .MoveUp 1, .MoveToEndOfLine]),
    (KeyCombinationRegister.i [pk KeyCode.Enter], A1 (.LineBreak 1)),
    (KeyCombinationRegister.i [pk (KeyCode.Char 'j')], A1 (.LineBreak 1)),
    (KeyCombinationRegister.i [pk KeyCode.Backspace], A1 (.DeleteChar 1)),
    (KeyCombinationRegister.i [pk (KeyCode.Char 'h')], A1 (.DeleteChar 1)),
    (KeyCombinationRegister.i [pk KeyCode.Backspace], A1 (.DeleteCharForward 1)),
    (KeyCombinationRegister.i [pk (KeyCode.Char 'd')], A1 (.DeleteCharForward 1)),
    (KeyCombinationRegister.i [pk (KeyCode.Char 'd')],
      AC [.SwitchMode .Visual, .MoveWordForwardToEndOfWord 1, .DeleteSelection,
        .SwitchMode .Insert]),
    (KeyCombinationRegister.i [pk KeyCode.Backspace],
      AC [.SwitchMode .Visual, .MoveWordBackward 1, .DeleteSelection, .SwitchMode .Insert]),
    (KeyCombinationRegister.i [pk (KeyCode.Char 'u')], A1 .Undo),
    (KeyCombinationRegister.i [pk (KeyCode.Char 'r')], A1 .Redo),
    (KeyCombinationRegister.i [pk (KeyCode.Char 'y')], A1 .Paste)
  ]

/-- The dispatcher (struct KeyCombinationHandler in src/src/events/key.rs):
the pending lookup chord, the binding register, and the capture-on-insert
policy.  The HashMap register is modelled as an association list in
insertion order. -/
structure KeyCombinationHandler where
  lookup : List KeyCombination
  register : List (KeyCombinationRegister × Action)
  capture_on_insert : Bool

/-- KeyCombinationHandler::new. -/
def KeyCombinationHandler.new (register : List (KeyCombinationRegister × Action))
    (capture_on_insert : Bool) : KeyCombinationHandler :=
  ⟨[], register, capture_on_insert⟩

/-- KeyCombinationHandler::vim_mode: the vim preset, capture on insert
disabled. -/
def KeyCombinationHandler.vim_mode : KeyCombinationHandler :=
  ⟨[], vim_keybindings, false⟩

/-- KeyCombinationHandler::emacs_mode: the emacs preset, capture on insert
enabled. -/
def KeyCombinationHandler.emacs_mode : KeyCombinationHandler :=
  ⟨[], emacs_keybindings, true⟩

/-- KeyCombinationHandler::insert: insert a new callback into the
registry. -/
def KeyCombinationHandler.insert (h : KeyCombinationHandler)
    (key : KeyCombinationRegister) (action : Action) : KeyCombinationHandler :=
  { h with register := insertEntry h.register key action }

/-- KeyCombinationHandler::extend: extend the register with the contents of
an iterator. -/
def KeyCombinationHandler.extend (h : KeyCombinationHandler)
    (iter : List (KeyCombinationRegister × Action)) : KeyCombinationHandler :=
  { h with register := extendEntries h.register iter }

/-- KeyCombinationHandler::remove: remove a callback from the registry. -/
def KeyCombinationHandler.remove (h : KeyCombinationHandler)
    (key : KeyCombinationRegister) : KeyCombinationHandler :=
  { h with register := removeEntry h.register key }

/-- The predicate of the closure inside KeyCombinationHandler::get: an
entry kv matches when its mode equals the lookup mode and its chord starts
with the candidate chord P. -/
def matchesKey (P : List KeyCombination) (M : EditorMode)
    (kv : KeyCombinationRegister × Action) : Bool :=
  decide (kv.1.mode = M ∧ P <+: kv.1.keys)

/-- KeyCombinationHandler::get: push the key onto the lookup chord, then
search the register, in iteration order, for an entry of the same mode
whose chord starts with the lookup chord; the lookup chord is reset on both
branches and the found action, if any, is returned. -/
def KeyCombinationHandler.get (h : KeyCombinationHandler) (c : KeyCombination)
    (mode : EditorMode) : Option Action × KeyCombinationHandler :=
  let lookup2 := h.lookup ++ [c]
  let key := KeyCombinationRegister.new lookup2 mode
  match h.register.find? (matchesKey key.keys key.mode) with
  | some kv => (some kv.2, { h with lookup := [] })
  | none => (none, { h with lookup := [] })

/-- The wildcard arm of the match in KeyCombinationHandler::on_event: look
up an action from the register and execute it if one is found. -/
def KeyCombinationHandler.dispatchLookup (h : KeyCombinationHandler)
    (key : KeyCombination) (s : EditorState) (mode : EditorMode) :
    KeyCombinationHandler × EditorState :=
  match KeyCombinationHandler.get h key mode with
  | (some action, h2) => (h2, Action.execute action s)
  | (none, h2) => (h2, s)

/-- KeyCombinationHandler::on_event: the dispatch entry point.  The first
key code of the event is matched: characters and tab in Insert mode and
characters in Search mode are passed through literally (capturing an undo
checkpoint first in Insert mode when the policy is set); every other case
falls to the registry lookup.  Returns the updated handler and editor
state. -/
def KeyCombinationHandler.on_event (h : KeyCombinationHandler)
    (key : KeyCombination) (s : EditorState) : KeyCombinationHandler × EditorState :=
  let mode := s.mode
  match key.codeFirst with
  | KeyCode.Char c =>
      if mode = EditorMode.Insert then
        (h, AtomicAction.execute (AtomicAction.InsertChar c)
          (if h.capture_on_insert then s.capture else s))
      else if mode = EditorMode.Search then
        (h, AtomicAction.execute (AtomicAction.AppendCharToSearch c) s)
      else
        KeyCombinationHandler.dispatchLookup h key s mode
  | KeyCode.Tab =>
      if mode = EditorMode.Insert then
        (h, AtomicAction.execute (AtomicAction.InsertChar '\t')
          (if h.capture_on_insert then s.capture else s))
      else
        KeyCombinationHandler.dispatchLookup h key s mode
  | _ => KeyCombinationHandler.dispatchLookup h key s mode

/-- The dispatch reaches the registry-lookup branch exactly when no
passthrough arm of on_event fires for this first key code and mode. -/
def reachesLookup (key : KeyCombination) (mode : EditorMode) : Bool :=
  match key.codeFirst with
  | KeyCode.Char _ =>
      !(decide (mode = EditorMode.Insert)) && !(decide (mode = EditorMode.Search))
  | KeyCode.Tab => !(decide (mode = EditorMode.Insert))
  | _ => true

/-- The host loop of section 2: feed a sequence of raw events to the
dispatcher in order, threading handler and editor state. -/
def processEvents (h : KeyCombinationHandler) (events : List KeyCombination)
    (s : EditorState) : KeyCombinationHandler × EditorState :=
  match events with
  | [] => (h, s)
  | e :: rest =>
      let r := KeyCombinationHandler.on_event h e s
      processEvents r.1 rest r.2

/-- The register holds at most one entry per binding key. -/
def distinctKeys (r : List (KeyCombinationRegister × Action)) : Prop :=
  (r.map Prod.fst).Nodup

/-- Concrete key used by witnesses: the plain g character key. -/
def gKey : KeyCombination := pk (KeyCode.Char 'g')

/-- Concrete chord used by witnesses: the two-key chord g g in Normal
mode. -/
def ggChord : KeyCombinationRegister := KeyCombinationRegister.n [gKey, gKey]

/-- Concrete key used by witnesses: the plain d character key. -/
def dKey : KeyCombination := pk (KeyCode.Char 'd')

/-- Concrete chord: the two-key chord d d in Normal mode. -/
def ddChord : KeyCombinationRegister := KeyCombinationRegister.n [dKey, dKey]

/-- Concrete chord: the one-key chord d in Normal mode. -/
def dChord : KeyCombinationRegister := KeyCombinationRegister.n [dKey]

/-- Concrete handler for witnesses: only the g g chord is registered. -/
def hC1 : KeyCombinationHandler :=
  KeyCombinationHandler.new [(ggChord, A1 AtomicAction.MoveToFirstRow)] false

/-- Concrete handler for witnesses: an empty register. -/
def hEmpty : KeyCombinationHandler := KeyCombinationHandler.new [] false

/-- Concrete handler showing the lookup tie-break: the two-key d d chord is
registered (and therefore iterated) before the one-key d chord. -/
def hC7 : KeyCombinationHandler :=
  KeyCombinationHandler.insert
    (KeyCombinationHandler.insert (KeyCombinationHandler.new [] false)
      ddChord (A1 (AtomicAction.DeleteLine 1)))
    dChord (A1 AtomicAction.MoveHalfPageDown)

/-- Concrete editor state in Normal mode with an empty trace. -/
def sNormal : EditorState := EditorState.mk EditorMode.Normal []

/-- Concrete editor state in Insert mode with an empty trace. -/
def sInsert : EditorState := EditorState.mk EditorMode.Insert []

/-- Concrete editor state in Search mode with an empty trace. -/
def sSearch : EditorState := EditorState.mk EditorMode.Search []

/-- Helper: the matching predicate holds exactly when the mode matches and
the chord extends the candidate. -/
theorem matchesKey_iff (P : List KeyCombination) (M : EditorMode)
    (kv : KeyCombinationRegister × Action) :
    matchesKey P M kv = true ↔ (kv.1.mode = M ∧ P <+: kv.1.keys) := by
  unfold matchesKey
  exact decide_eq_true_iff

/-- Characterization of KeyCombinationHandler::get: the result is the value
of the first matching register entry in iteration order, and the lookup
chord is reset in either case. -/
theorem get_eq (h : KeyCombinationHandler) (c : KeyCombination) (mode : EditorMode) :
    KeyCombinationHandler.get h c mode =
      ((h.register.find? (matchesKey (h.lookup ++ [c]) mode)).map Prod.snd,
        { h with lookup := [] }) := by
  have hmatch : ∀ (o : Option (KeyCombinationRegister × Action)),
      (match o with
        | some kv => (some kv.2, { h with lookup := [] })
        | none => ((none : Option Action), { h with lookup := [] })) =
      (o.map Prod.snd, ({ h with lookup := [] } : KeyCombinationHandler)) := by
    intro o
    cases o <;> rfl
  exact hmatch (h.register.find? (matchesKey (h.lookup ++ [c]) mode))

/-- When the dispatch reaches the registry-lookup branch, on_event is the
wildcard arm applied at the current mode. -/
theorem on_event_of_reachesLookup (h : KeyCombinationHandler)
    (key : KeyCombination) (s : EditorState)
    (hr : reachesLookup key s.mode = true) :
    KeyCombinationHandler.on_event h key s =
      KeyCombinationHandler.dispatchLookup h key s s.mode := by
  unfold reachesLookup at hr
  unfold KeyCombinationHandler.on_event
  cases hk : key.codeFirst <;>
    simp_all [Bool.and_eq_true, Bool.not_eq_true', decide_eq_false_iff_not]

/-- The wildcard arm always resets the lookup chord. -/
theorem dispatchLookup_fst (h : KeyCombinationHandler) (key : KeyCombination)
    (s : EditorState) (mode : EditorMode) :
    (KeyCombinationHandler.dispatchLookup h key s mode).1 = { h with lookup := [] } := by
  unfold KeyCombinationHandler.dispatchLookup
  rw [get_eq]
  cases (h.register.find? (matchesKey (h.lookup ++ [key]) mode)).map Prod.snd <;> rfl

/-- Every dispatch either leaves the handler untouched (a passthrough arm)
or resets the lookup chord (the registry-lookup arm). -/
theorem on_event_fst_cases (h : KeyCombinationHandler) (key : KeyCombination)
    (s : EditorState) :
    (KeyCombinationHandler.on_event h key s).1 = h ∨
    (KeyCombinationHandler.on_event h key s).1 = { h with lookup := [] } := by
  unfold KeyCombinationHandler.on_event
  cases key.codeFirst
  case Char c =>
    by_cases hi : s.mode = EditorMode.Insert
    · left; simp [hi]
    · by_cases hs : s.mode = EditorMode.Search
      · left; simp [hi, hs]
      · right; simp [hi, hs, dispatchLookup_fst]
  case Tab =>
    by_cases hi : s.mode = EditorMode.Insert
    · left; simp [hi]
    · right; simp [hi, dispatchLookup_fst]
  all_goals exact Or.inr (dispatchLookup_fst h key s s.mode)

/-- Starting from an empty lookup chord, any event sequence leaves the
lookup chord empty. -/
theorem processEvents_lookup_empty (events : List KeyCombination) :
    ∀ (h : KeyCombinationHandler) (s : EditorState), h.lookup = [] →
      ((processEvents h events s).1).lookup = [] := by
  induction events with
  | nil => intro h s h0; exact h0
  | cons e rest ih =>
    intro h s h0
    unfold processEvents
    apply ih
    rcases on_event_fst_cases h e s with hcase | hcase
    · rw [hcase]; exact h0
    · rw [hcase]

/-- Helper: the nil equation of insertEntry. -/
theorem insertEntry_nil (k : KeyCombinationRegister) (a : Action) :
    insertEntry [] k a = [(k, a)] := rfl

/-- Helper: the cons equation of insertEntry. -/
theorem insertEntry_cons (kv : KeyCombinationRegister × Action)
    (rest : List (KeyCombinationRegister × Action)) (k : KeyCombinationRegister)
    (a : Action) :
    insertEntry (kv :: rest) k a =
      if kv.1 = k then (k, a) :: rest else kv :: insertEntry rest k a := rfl

/-- Helper: the cons equation of removeEntry. -/
theorem removeEntry_cons (kv : KeyCombinationRegister × Action)
    (rest : List (KeyCombinationRegister × Action)) (k : KeyCombinationRegister) :
    removeEntry (kv :: rest) k = if kv.1 = k then rest else kv :: removeEntry rest k := rfl

/-- Helper: findEntry at a cons whose head key matches. -/
theorem findEntry_cons_of_eq (kv : KeyCombinationRegister × Action)
    (rest : List (KeyCombinationRegister × Action)) (k : KeyCombinationRegister)
    (hk : kv.1 = k) :
    findEntry (kv :: rest) k = some kv.2 := by
  unfold findEntry
  simp [List.find?, hk]

/-- Helper: findEntry at a cons whose head key differs. -/
theorem findEntry_cons_of_ne (kv : KeyCombinationRegister × Action)
    (rest : List (KeyCombinationRegister × Action)) (k : KeyCombinationRegister)
    (hk : ¬ kv.1 = k) :
    findEntry (kv :: rest) k = findEntry rest k := by
  unfold findEntry
  simp [List.find?, hk]

/-- Helper: List.find? finds the first witness of the predicate, in order:
either nothing satisfies it, or the list splits around the found element,
with everything before it failing the predicate. -/
theorem find?_first {α : Type} (p : α → Bool) (l : List α) :
    (l.find? p = none ∧ ∀ x ∈ l, ¬ p x = true) ∨
    ∃ l1 a l2, l = l1 ++ a :: l2 ∧ l.find? p = some a ∧ p a = true ∧
      ∀ x ∈ l1, ¬ p x = true := by
  induction l with
  | nil => left; exact ⟨rfl, by simp⟩
  | cons b rest ih =>
    cases hb : p b
    case true =>
      right
      exact ⟨[], b, rest, rfl, by simp [List.find?, hb], hb, by simp⟩
    case false =>
      rcases ih with ⟨hnone, hall⟩ | ⟨l1, a, l2, heq, hfind, hpa, hall⟩
      · left
        refine ⟨by simp [List.find?, hb, hnone], ?_⟩
        intro x hx
        rcases List.mem_cons.mp hx with rfl | hx
        · simp [hb]
        · exact hall x hx
      · right
        refine ⟨b :: l1, a, l2, by rw [heq, List.cons_append],
          by simp [List.find?, hb, hfind], hpa, ?_⟩
        intro x hx
        rcases List.mem_cons.mp hx with rfl | hx
        · simp [hb]
        · exact hall x hx

/-- Helper: inserting at a key makes that key retrievable with the new
value. -/
theorem findEntry_insertEntry_self (r : List (KeyCombinationRegister × Action))
    (k : KeyCombinationRegister) (a : Action) :
    findEntry (insertEntry r k a) k = some a := by
  induction r with
  | nil => rw [insertEntry_nil, findEntry_cons_of_eq (k, a) [] k rfl]
  | cons kv rest ih =>
    by_cases hk : kv.1 = k
    · rw [insertEntry_cons, if_pos hk, findEntry_cons_of_eq (k, a) rest k rfl]
    · rw [insertEntry_cons, if_neg hk, findEntry_cons_of_ne kv _ k hk, ih]

/-- Helper: the keys present after an insert are the inserted key plus the
previous keys. -/
theorem mem_keys_insertEntry (r : List (KeyCombinationRegister × Action))
    (k : KeyCombinationRegister) (a : Action) (x : KeyCombinationRegister) :
    x ∈ (insertEntry r k a).map Prod.fst ↔ x = k ∨ x ∈ r.map Prod.fst := by
  induction r with
  | nil => simp [insertEntry_nil]
  | cons kv rest ih =>
    by_cases hk : kv.1 = k
    · rw [insertEntry_cons, if_pos hk]
      simp [List.mem_cons, hk]
      try tauto
    · rw [insertEntry_cons, if_neg hk]
      simp [List.mem_cons, ih]
      try tauto

/-- Helper: inserting preserves key uniqueness. -/
theorem distinctKeys_insertEntry (r : List (KeyCombinationRegister × Action))
    (k : KeyCombinationRegister) (a : Action) :
    distinctKeys r → distinctKeys (insertEntry r k a) := by
  induction r with
  | nil =>
    intro _
    unfold distinctKeys
    rw [insertEntry_nil]
    simp
  | cons kv rest ih =>
    intro hd
    unfold distinctKeys at hd ⊢
    rw [List.map_cons, List.nodup_cons] at hd
    by_cases hk : kv.1 = k
    · rw [insertEntry_cons, if_pos hk, List.map_cons, List.nodup_cons]
      exact ⟨by rw [← hk]; exact hd.1, hd.2⟩
    · rw [insertEntry_cons, if_neg hk, List.map_cons, List.nodup_cons]
      refine ⟨?_, ih hd.2⟩
      rw [mem_keys_insertEntry]
      rintro (hx | hx)
      · exact hk hx
      · exact hd.1 hx

/-- Helper: with unique keys, every entry left at the inserted key carries
the inserted value. -/
theorem mem_insertEntry_self (r : List (KeyCombinationRegister × Action))
    (k : KeyCombinationRegister) (a v : Action) :
    distinctKeys r → (k, v) ∈ insertEntry r k a → v = a := by
  induction r with
  | nil =>
    intro _ hmem
    rw [insertEntry_nil] at hmem
    rcases List.mem_cons.mp hmem with heq | hmem
    · exact congrArg Prod.snd heq
    · exact absurd hmem (List.not_mem_nil _)
  | cons kv rest ih =>
    intro hd hmem
    unfold distinctKeys at hd
    rw [List.map_cons, List.nodup_cons] at hd
    by_cases hk : kv.1 = k
    · rw [insertEntry_cons, if_pos hk] at hmem
      rcases List.mem_cons.mp hmem with heq | hmem
      · exact congrArg Prod.snd heq
      · exfalso
        apply hd.1
        rw [hk]
        exact List.mem_map_of_mem Prod.fst hmem
    · rw [insertEntry_cons, if_neg hk] at hmem
      rcases List.mem_cons.mp hmem with heq | hmem
      · exfalso
        exact hk (congrArg Prod.fst heq.symm)
      · exact ih hd.2 hmem

/-- Helper: removing an absent key is the identity. -/
theorem removeEntry_of_findEntry_none (r : List (KeyCombinationRegister × Action))
    (k : KeyCombinationRegister) :
    findEntry r k = none → removeEntry r k = r := by
  induction r with
  | nil => intro _; rfl
  | cons kv rest ih =>
    intro hf
    by_cases hk : kv.1 = k
    · rw [findEntry_cons_of_eq kv rest k hk] at hf
      cases hf
    · rw [findEntry_cons_of_ne kv rest k hk] at hf
      rw [removeEntry_cons, if_neg hk, ih hf]

/-- Helper: removal yields a sublist of the register. -/
theorem removeEntry_sublist (r : List (KeyCombinationRegister × Action))
    (k : KeyCombinationRegister) :
    List.Sublist (removeEntry r k) r := by
  induction r with
  | nil => exact List.Sublist.refl []
  | cons kv rest ih =>
    by_cases hk : kv.1 = k
    · rw [removeEntry_cons, if_pos hk]
      exact List.sublist_cons_self kv rest
    · rw [removeEntry_cons, if_neg hk]
      exact List.Sublist.cons₂ kv ih

/-- Helper: removal preserves key uniqueness. -/
theorem distinctKeys_removeEntry (r : List (KeyCombinationRegister × Action))
    (k : KeyCombinationRegister) :
    distinctKeys r → distinctKeys (removeEntry r k) := by
  intro hd
  exact List.Nodup.sublist (List.Sublist.map Prod.fst (removeEntry_sublist r k)) hd

/-- C1: for every registered chord whose chord has the candidate pending
chord (the stored lookup chord extended by the dispatched key) as a
positional prefix, a dispatch that reaches the registry-lookup branch while
the modes agree reports a match: it clears the pending chord and executes
the action of a matching registered chord, even when the candidate is a
strict, non-exact prefix. -/
theorem prefix_match_dispatch (h : KeyCombinationHandler) (s : EditorState)
    (key : KeyCombination) (K : KeyCombinationRegister) (A : Action)
    (hmem : (K, A) ∈ h.register) (hmode : K.mode = s.mode)
    (hpre : (h.lookup ++ [key]) <+: K.keys)
    (hreach : reachesLookup key s.mode = true) :
    ∃ K2 A2, (K2, A2) ∈ h.register ∧ K2.mode = s.mode ∧
      (h.lookup ++ [key]) <+: K2.keys ∧
      KeyCombinationHandler.on_event h key s =
        ({ h with lookup := [] }, Action.execute A2 s) := by
  rw [on_event_of_reachesLookup h key s hreach]
  unfold KeyCombinationHandler.dispatchLookup
  rw [get_eq]
  have hex : (h.register.find? (matchesKey (h.lookup ++ [key]) s.mode)).isSome := by
    rw [List.find?_isSome]
    exact ⟨(K, A), hmem, (matchesKey_iff _ _ _).mpr ⟨hmode, hpre⟩⟩
  obtain ⟨kv, hkv⟩ := Option.isSome_iff_exists.mp hex
  have hp := (matchesKey_iff _ _ _).mp (List.find?_some hkv)
  refine ⟨kv.1, kv.2, List.mem_of_find?_eq_some hkv, hp.1, hp.2, ?_⟩
  rw [hkv]
  rfl

/-- Witness for C1 at a concrete strict prefix: with only the two-key g g
chord registered in Normal mode, dispatching a single g matches and fires
its action. -/
theorem prefix_match_dispatch_witness :
    ∃ K2 A2, (K2, A2) ∈ hC1.register ∧ K2.mode = sNormal.mode ∧
      (hC1.lookup ++ [gKey]) <+: K2.keys ∧
      KeyCombinationHandler.on_event hC1 gKey sNormal =
        ({ hC1 with lookup := [] }, Action.execute A2 sNormal) :=
  prefix_match_dispatch hC1 sNormal gKey ggChord (A1 AtomicAction.MoveToFirstRow)
    (List.Mem.head _) rfl ⟨[gKey], rfl⟩ rfl

/-- C2 (code bug): with the vim keymap, in Normal mode, dispatching the
two-key chord g g executes the bound MoveToFirstRow action at EACH of the
two keystrokes, twice in total instead of exactly once, because get fires
on a strict prefix and clears the lookup chord on every call, contradicting
the documentation comment on get in the source (append to the lookup vector
on an inexact match, return an action only on an exact match). -/
theorem vim_gg_fires_on_each_keystroke :
    (let r1 := KeyCombinationHandler.on_event KeyCombinationHandler.vim_mode gKey sNormal
     let r2 := KeyCombinationHandler.on_event r1.1 gKey r1.2
     r1.2.trace = [TraceEvent.act AtomicAction.MoveToFirstRow] ∧
     r1.1.lookup = [] ∧
     r2.2.mode = EditorMode.Normal ∧
     r2.2.trace = [TraceEvent.act AtomicAction.MoveToFirstRow,
       TraceEvent.act AtomicAction.MoveToFirstRow]) :=
  ⟨rfl, rfl, rfl, rfl⟩

/-- C3: a dispatch whose first key code is a character (or tab) while the
mode is Insert is handled by the literal passthrough: an undo checkpoint of
the buffer is taken first exactly when capture on insert is set, the
literal character is inserted, and the handler, hence the pending lookup
chord and the register, is untouched; the right-hand side does not mention
the register, so the Registry is never consulted, whatever it contains. -/
theorem insert_mode_passthrough (h : KeyCombinationHandler) (s : EditorState)
    (key : KeyCombination) (c : Char)
    (hm : s.mode = EditorMode.Insert)
    (hc : key.codeFirst = KeyCode.Char c ∨ (key.codeFirst = KeyCode.Tab ∧ c = '\t')) :
    KeyCombinationHandler.on_event h key s =
      (h, AtomicAction.execute (AtomicAction.InsertChar c)
        (if h.capture_on_insert then s.capture else s)) := by
  unfold KeyCombinationHandler.on_event
  rcases hc with hc | ⟨hc, hc2⟩
  · rw [hc]
    simp [hm]
  · subst hc2
    rw [hc]
    simp [hm]

/-- Witness for C3: pressing a while Insert is active under the vim keymap
inserts a literal a, although a Normal-mode binding for a exists. -/
theorem insert_mode_passthrough_witness :
    KeyCombinationHandler.on_event KeyCombinationHandler.vim_mode (pk (KeyCode.Char 'a'))
        sInsert =
      (KeyCombinationHandler.vim_mode,
        AtomicAction.execute (AtomicAction.InsertChar 'a')
          (if KeyCombinationHandler.vim_mode.capture_on_insert then sInsert.capture
            else sInsert)) :=
  insert_mode_passthrough KeyCombinationHandler.vim_mode sInsert (pk (KeyCode.Char 'a'))
    'a' rfl (Or.inl rfl)

/-- C4: when a dispatch reaches the registry-lookup branch and no entry of
the active mode has the candidate pending chord as a positional prefix, the
pending chord is cleared and the event is dropped with no other mutation:
the editor state (mode, buffer, cursor, trace) is returned unchanged and
the handler keeps its register. -/
theorem unmatched_event_dropped (h : KeyCombinationHandler) (s : EditorState)
    (key : KeyCombination)
    (hreach : reachesLookup key s.mode = true)
    (hnone : ∀ kv ∈ h.register, ¬(kv.1.mode = s.mode ∧ (h.lookup ++ [key]) <+: kv.1.keys)) :
    KeyCombinationHandler.on_event h key s = ({ h with lookup := [] }, s) := by
  rw [on_event_of_reachesLookup h key s hreach]
  unfold KeyCombinationHandler.dispatchLookup
  rw [get_eq]
  have hf : h.register.find? (matchesKey (h.lookup ++ [key]) s.mode) = none := by
    rw [List.find?_eq_none]
    intro kv hkv
    simp only [matchesKey_iff]
    exact hnone kv hkv
  rw [hf]
  rfl

/-- Witness for C4: with an empty register, dispatching g in Normal mode
drops the event and changes nothing. -/
theorem unmatched_event_dropped_witness :
    KeyCombinationHandler.on_event hEmpty gKey sNormal =
      ({ hEmpty with lookup := [] }, sNormal) :=
  unmatched_event_dropped hEmpty sNormal gKey rfl
    (fun kv hkv => absurd hkv (List.not_mem_nil kv))

/-- C5: get resets the lookup chord on both branches; any dispatch that
reaches the registry-lookup branch leaves the pending chord empty; and,
starting from an empty pending chord, any sequence of dispatched events
leaves the pending chord empty, for every register contents. -/
theorem pending_cleared_invariant (h h2 : KeyCombinationHandler)
    (key c : KeyCombination) (M : EditorMode) (s s2 : EditorState)
    (events : List KeyCombination)
    (hreach : reachesLookup key s.mode = true) (h0 : h2.lookup = []) :
    ((KeyCombinationHandler.get h c M).2).lookup = [] ∧
    ((KeyCombinationHandler.on_event h key s).1).lookup = [] ∧
    ((processEvents h2 events s2).1).lookup = [] := by
  refine ⟨?_, ?_, processEvents_lookup_empty events h2 s2 h0⟩
  · rw [get_eq]
  · rw [on_event_of_reachesLookup h key s hreach, dispatchLookup_fst]

/-- Witness for C5 at concrete inputs. -/
theorem pending_cleared_invariant_witness :
    ((KeyCombinationHandler.get hC1 gKey EditorMode.Normal).2).lookup = [] ∧
    ((KeyCombinationHandler.on_event hC1 gKey sNormal).1).lookup = [] ∧
    ((processEvents hEmpty [gKey, gKey] sNormal).1).lookup = [] :=
  pending_cleared_invariant hC1 hEmpty gKey gKey EditorMode.Normal sNormal sNormal
    [gKey, gKey] rfl rfl

/-- C6: registry mutation is total and last write wins: inserting action A
then action B at the same key leaves exactly B retrievable and every entry
left at that key carries B; inserts and removes preserve the at-most-one-
entry-per-key invariant; and removing an absent key leaves the handler
unchanged. -/
theorem register_mutation_semantics (h : KeyCombinationHandler)
    (k k2 : KeyCombinationRegister) (A B : Action)
    (hd : distinctKeys h.register) (habs : findEntry h.register k = none) :
    findEntry (((h.insert k A).insert k B).register) k = some B ∧
    (∀ v, (k, v) ∈ ((h.insert k A).insert k B).register → v = B) ∧
    distinctKeys (((h.insert k A).insert k B).register) ∧
    distinctKeys ((h.remove k2).register) ∧
    h.remove k = h := by
  refine ⟨?_, ?_, ?_, ?_, ?_⟩
  · exact findEntry_insertEntry_self (insertEntry h.register k A) k B
  · intro v hv
    exact mem_insertEntry_self (insertEntry h.register k A) k B v
      (distinctKeys_insertEntry h.register k A hd) hv
  · exact distinctKeys_insertEntry (insertEntry h.register k A) k B
      (distinctKeys_insertEntry h.register k A hd)
  · exact distinctKeys_removeEntry h.register k2 hd
  · unfold KeyCombinationHandler.remove
    rw [removeEntry_of_findEntry_none h.register k habs]

/-- Witness for C6 at concrete inputs: overwriting at the g g chord on an
empty register. -/
theorem register_mutation_semantics_witness :
    findEntry (((hEmpty.insert ggChord (A1 AtomicAction.Undo)).insert ggChord
        (A1 AtomicAction.Redo)).register) ggChord = some (A1 AtomicAction.Redo) ∧
    (∀ v, (ggChord, v) ∈ ((hEmpty.insert ggChord (A1 AtomicAction.Undo)).insert ggChord
        (A1 AtomicAction.Redo)).register → v = A1 AtomicAction.Redo) ∧
    distinctKeys (((hEmpty.insert ggChord (A1 AtomicAction.Undo)).insert ggChord
        (A1 AtomicAction.Redo)).register) ∧
    distinctKeys ((hEmpty.remove dChord).register) ∧
    hEmpty.remove ggChord = hEmpty :=
  register_mutation_semantics hEmpty ggChord dChord (A1 AtomicAction.Undo)
    (A1 AtomicAction.Redo) (by simp [distinctKeys, hEmpty, KeyCombinationHandler.new]) rfl

/-- C7 counterexample: with the two-key d d chord registered (and hence
iterated) before the one-key d chord, looking up a single d returns the
action of the strict-prefix candidate d d, not the action of the
exact-length match d, so the lookup does not prefer an exact-length match
over a strict-prefix match. -/
theorem lookup_no_exact_preference :
    (KeyCombinationHandler.get hC7 dKey EditorMode.Normal).1 =
      some (A1 (AtomicAction.DeleteLine 1)) ∧
    (dChord, A1 AtomicAction.MoveHalfPageDown) ∈ hC7.register ∧
    dChord.keys = hC7.lookup ++ [dKey] ∧
    AtomicAction.DeleteLine 1 ≠ AtomicAction.MoveHalfPageDown := by
  refine ⟨rfl, ?_, rfl, by decide⟩
  exact List.Mem.tail _ (List.Mem.head _)

/-- C7 amended: for fixed register contents, mode and pending chord, the
lookup is the deterministic function that returns the action of the first
entry in register iteration order whose mode matches and whose chord has
the candidate pending chord as a positional prefix, and none when no entry
matches; no preference for exact-length matches or shorter chords is
applied. -/
theorem get_returns_first_match (h : KeyCombinationHandler) (c : KeyCombination)
    (M : EditorMode) :
    ((KeyCombinationHandler.get h c M).1 = none ∧
      ∀ kv ∈ h.register, ¬(kv.1.mode = M ∧ (h.lookup ++ [c]) <+: kv.1.keys)) ∨
    ∃ l1 kv l2, h.register = l1 ++ kv :: l2 ∧
      (KeyCombinationHandler.get h c M).1 = some kv.2 ∧
      kv.1.mode = M ∧ (h.lookup ++ [c]) <+: kv.1.keys ∧
      ∀ kv2 ∈ l1, ¬(kv2.1.mode = M ∧ (h.lookup ++ [c]) <+: kv2.1.keys) := by
  rcases find?_first (matchesKey (h.lookup ++ [c]) M) h.register with
    ⟨hnone, hall⟩ | ⟨l1, kv, l2, heq, hfind, hp, hall⟩
  · left
    refine ⟨?_, ?_⟩
    · rw [get_eq, hnone]
      rfl
    · intro kv hkv hprop
      exact hall kv hkv ((matchesKey_iff _ _ _).mpr hprop)
  · right
    refine ⟨l1, kv, l2, heq, ?_, ((matchesKey_iff _ _ _).mp hp).1,
      ((matchesKey_iff _ _ _).mp hp).2, ?_⟩
    · rw [get_eq, hfind]
      rfl
    · intro kv2 hkv2 hprop
      exact hall kv2 hkv2 ((matchesKey_iff _ _ _).mpr hprop)

/-- C8 (code bug): with the emacs preset (capture on insert enabled) in
Insert mode, dispatching the key combination registered for the forward
motion is intercepted by the Insert passthrough: an undo checkpoint IS
taken and the literal character f is inserted; the register is never
consulted, so the registered forward motion binding is unreachable and no
cursor motion action executes. -/
theorem emacs_forward_chord_captures_and_inserts :
    KeyCombinationHandler.on_event KeyCombinationHandler.emacs_mode
      (pk (KeyCode.Char 'f')) sInsert =
    (KeyCombinationHandler.emacs_mode,
      EditorState.mk EditorMode.Insert
        [TraceEvent.capture, TraceEvent.act (AtomicAction.InsertChar 'f')]) := rfl

/-- C9: a dispatch whose first key code is a character while the mode is
Search is handled by the query passthrough: the character is appended to
the active search query and the handler, hence the pending lookup chord and
the register, is untouched; the right-hand side does not mention the
register, so no Registry action can be triggered, whatever it contains. -/
theorem search_mode_passthrough (h : KeyCombinationHandler) (s : EditorState)
    (key : KeyCombination) (c : Char)
    (hm : s.mode = EditorMode.Search) (hc : key.codeFirst = KeyCode.Char c) :
    KeyCombinationHandler.on_event h key s =
      (h, AtomicAction.execute (AtomicAction.AppendCharToSearch c) s) := by
  unfold KeyCombinationHandler.on_event
  rw [hc]
  simp [hm]

/-- Witness for C9: pressing n while Search is active under the vim keymap
appends n to the query even though a Normal-mode binding for n exists. -/
theorem search_mode_passthrough_witness :
    KeyCombinationHandler.on_event KeyCombinationHandler.vim_mode (pk (KeyCode.Char 'n'))
        sSearch =
      (KeyCombinationHandler.vim_mode,
        AtomicAction.execute (AtomicAction.AppendCharToSearch 'n') sSearch) :=
  search_mode_passthrough KeyCombinationHandler.vim_mode sSearch (pk (KeyCode.Char 'n'))
    'n' rfl rfl

/-- C10: the Insert passthrough inspects only the first key code of the
event and ignores the modifier set and the remaining codes: any combination
whose first code is a character, with arbitrary modifiers, dispatched in
Insert mode inserts the literal character, and the result does not depend
on the register contents, so Insert-mode registry bindings whose chord
starts with a character key are never reached. -/
theorem insert_passthrough_ignores_modifiers (h : KeyCombinationHandler)
    (r : List (KeyCombinationRegister × Action)) (s : EditorState) (c : Char)
    (mods : Modifiers) (rest : List KeyCode)
    (hm : s.mode = EditorMode.Insert) :
    KeyCombinationHandler.on_event { h with register := r }
        (KeyCombination.mk (KeyCode.Char c) rest mods) s =
      ({ h with register := r },
        AtomicAction.execute (AtomicAction.InsertChar c)
          (if h.capture_on_insert then s.capture else s)) := by
  unfold KeyCombinationHandler.on_event
  simp [hm]

/-- Witness for C10: a control-modified q dispatched in Insert mode inserts
a literal q, although an Insert-mode binding for control q is registered
(mirroring the ctrl-q binding of the custom keybindings example). -/
theorem insert_passthrough_ignores_modifiers_witness :
    KeyCombinationHandler.on_event
        { hEmpty with register := [(KeyCombinationRegister.i
            [KeyCombination.one_key (KeyCode.Char 'q') Modifiers.CONTROL],
          A1 (AtomicAction.SwitchMode EditorMode.Normal))] }
        (KeyCombination.mk (KeyCode.Char 'q') [] Modifiers.CONTROL) sInsert =
      ({ hEmpty with register := [(KeyCombinationRegister.i
            [KeyCombination.one_key (KeyCode.Char 'q') Modifiers.CONTROL],
          A1 (AtomicAction.SwitchMode EditorMode.Normal))] },
        AtomicAction.execute (AtomicAction.InsertChar 'q')
          (if hEmpty.capture_on_insert then sInsert.capture else sInsert)) :=
  insert_passthrough_ignores_modifiers hEmpty
    [(KeyCombinationRegister.i [KeyCombination.one_key (KeyCode.Char 'q') Modifiers.CONTROL],
      A1 (AtomicAction.SwitchMode EditorMode.Normal))]
    sInsert 'q' Modifiers.CONTROL [] rfl

end Edtui
